import Mathlib

/-!
Shallow embedding of the goredis in-memory key-value server
(storage engine `storage.go`, command layer `commands.go`,
request parser `peer.go`, response dispatch `handlers.go`).

Go byte strings (`[]byte` values and `string` keys) are modelled as
`List Char`; the three Go maps of `Storage` are modelled as association
lists with unique-key insertion; wall-clock time (`time.Time`,
`time.Duration`) is modelled as `Nat` instants passed explicitly to the
operations that consult the clock, with `time.Now().After(t)` becoming
`now > t`.  Go `int64` arithmetic wraps; `wrap64` makes that explicit.
-/

abbrev Str := List Char

/-- Association-list lookup, mirroring Go map indexing `m[k]`. -/
def alookup {α : Type} : List (Str × α) → Str → Option α
  | [], _ => none
  | (k', v) :: t, k => if k' = k then some v else alookup t k

/-- Association-list update, mirroring Go map assignment `m[k] = v`. -/
def ainsert {α : Type} : List (Str × α) → Str → α → List (Str × α)
  | [], k, v => [(k, v)]
  | (k', v') :: t, k, v => if k' = k then (k, v) :: t else (k', v') :: ainsert t k v

/-- Association-list removal, mirroring Go `delete(m, k)`. -/
def aerase {α : Type} : List (Str × α) → Str → List (Str × α)
  | [], _ => []
  | (k', v') :: t, k => if k' = k then aerase t k else (k', v') :: aerase t k

/-- Two's-complement wraparound of Go `int64` addition results. -/
def wrap64 (x : Int) : Int := ((x + 2 ^ 63) % 2 ^ 64) - 2 ^ 63

/-- Decimal digit value of a character, or `none` (strconv digit scan). -/
def digitVal (c : Char) : Option Nat :=
  if '0' ≤ c ∧ c ≤ '9' then some (c.toNat - '0'.toNat) else none

/-- Parse a non-empty all-digit string to a `Nat` (strconv digit loop). -/
def parseNat : Str → Option Nat
  | [] => none
  | [c] => digitVal c
  | c :: t => match digitVal c, parseNat t with
    | some d, some n => some (d * 10 ^ t.length + n)
    | _, _ => none

/-- Go `strconv.ParseInt(s, 10, 64)`: optional sign, non-empty digit run,
value within the signed 64-bit range; `none` models a parse error. -/
def parseInt64 (s : Str) : Option Int :=
  let (neg, digits) : Bool × Str := match s with
    | '+' :: t => (false, t)
    | '-' :: t => (true, t)
    | t => (false, t)
  match parseNat digits with
  | none => none
  | some n =>
    if neg then
      if n ≤ 2 ^ 63 then some (-(n : Int)) else none
    else
      if n ≤ 2 ^ 63 - 1 then some (n : Int) else none

/-- Decimal digits of `n`, fuel-driven (helper for `natToStr`). -/
def natToStrAux : Nat → Nat → Str
  | 0, _ => []
  | _ + 1, 0 => []
  | fuel + 1, n => natToStrAux fuel (n / 10) ++ [Char.ofNat ('0'.toNat + n % 10)]

/-- Decimal string of a `Nat` (helper for `intToStr`). -/
def natToStr (n : Nat) : Str := if n = 0 then ['0'] else natToStrAux (n + 1) n

/-- Go `strconv.FormatInt(v, 10)`. -/
def intToStr : Int → Str
  | Int.ofNat n => natToStr n
  | Int.negSucc m => '-' :: natToStr (m + 1)

/-- Go `strings.Index(xs, pat)`: position of the first occurrence of
`pat` in `xs`, `none` when absent (Go returns `-1`). -/
def strIndex : Str → Str → Option Nat
  | xs, pat =>
    if pat.isPrefixOf xs then some 0
    else match xs with
      | [] => none
      | _ :: t => (strIndex t pat).map (· + 1)

/-- Go `strings.Split(pattern, "*")` for the single-character separator. -/
def splitOnStar : Str → List Str
  | [] => [[]]
  | c :: t =>
    if c = '*' then [] :: splitOnStar t
    else match splitOnStar t with
      | [] => [[c]]
      | h :: r => (c :: h) :: r

/-- The `for i, part := range parts` loop of `matchPattern` in
`storage.go`: carries the current key cursor `ki`; returns the final
cursor, or `none` when the loop `return false`s. -/
def matchLoop (key : Str) : List Str → Nat → Nat → Option Nat
  | [], _, ki => some ki
  | part :: rest, i, ki =>
    if part = [] then matchLoop key rest (i + 1) ki
    else match strIndex (key.drop ki) part with
      | none => none
      | some idx =>
        if i = 0 ∧ idx ≠ 0 then none
        else matchLoop key rest (i + 1) (ki + idx + part.length)

/-- Go `matchPattern` from `storage.go`: glob matching where `*` is the only
wildcard. -/
def matchPattern (key pattern : Str) : Bool :=
  if pattern = ['*'] then true
  else if ¬ pattern.contains '*' then key = pattern
  else
    match matchLoop key (splitOnStar pattern) 0 0 with
    | none => false
    | some ki =>
      if pattern.getLast? = some '*' then true else ki = key.length

/-- The `Storage` struct of `storage.go`: the three maps guarded by one
`sync.RWMutex` (the lock itself needs no model in this sequential
embedding; each exported operation below is one critical section). -/
structure Storage where
  data     : List (Str × Str)
  expiry   : List (Str × Nat)
  counters : List (Str × Int)
deriving DecidableEq, Repr

/-- Go `NewStorage`. -/
def Storage.empty : Storage := ⟨[], [], []⟩

/-- The expiry test repeated in the read paths of `storage.go`:
the key has an expiry entry and `time.Now().After(expTime)`. -/
def Storage.expiredAt (s : Storage) (k : Str) (now : Nat) : Bool :=
  match alookup s.expiry k with
  | some t => now > t
  | none => false

/-- Go `Storage.Set`. -/
def Storage.set (s : Storage) (k v : Str) : Storage :=
  { s with data := ainsert s.data k v, expiry := aerase s.expiry k }

/-- Go `Storage.SetWithExpiry` (absolute instant = `now + dur`). -/
def Storage.setWithExpiry (s : Storage) (k v : Str) (dur now : Nat) : Storage :=
  { s with data := ainsert s.data k v, expiry := ainsert s.expiry k (now + dur) }

/-- Go `Storage.Get`: expired keys are purged from `data` and `expiry`
(only those two maps) and reported absent. -/
def Storage.get (s : Storage) (k : Str) (now : Nat) : Option Str × Storage :=
  if s.expiredAt k now then
    (none, { s with data := aerase s.data k, expiry := aerase s.expiry k })
  else
    (alookup s.data k, s)

/-- Go `Storage.Delete`: purges all three maps; the result reflects prior
presence in `data`. -/
def Storage.delete (s : Storage) (k : Str) : Bool × Storage :=
  match alookup s.data k with
  | some _ => (true, ⟨aerase s.data k, aerase s.expiry k, aerase s.counters k⟩)
  | none => (false, s)

/-- Go `Storage.Exists`: same expiry test as `Get` but performs no purge
(the Go function only reads the maps). -/
def Storage.existsKey (s : Storage) (k : Str) (now : Nat) : Bool :=
  if s.expiredAt k now then false else (alookup s.data k).isSome

/-- Go `Storage.Append`: no expiry consultation, TTL untouched. -/
def Storage.append (s : Storage) (k v : Str) : Nat × Storage :=
  match alookup s.data k with
  | none => (v.length, { s with data := ainsert s.data k v })
  | some old =>
    let nv := old ++ v
    (nv.length, { s with data := ainsert s.data k nv })

/-- Go `Storage.Strlen`: 0 for absent or expired keys; no purge. -/
def Storage.strlen (s : Storage) (k : Str) (now : Nat) : Nat :=
  if s.expiredAt k now then 0
  else match alookup s.data k with
    | some v => v.length
    | none => 0

/-- Go `Storage.GetRange`: negative indices counted from the end, `start`
clamped from below to 0, `end` clamped from above to `length - 1`,
empty result when `start > end` or the key is absent or expired;
no purge. -/
def Storage.getRange (s : Storage) (k : Str) (start stop : Int) (now : Nat) : Str :=
  if s.expiredAt k now then []
  else match alookup s.data k with
    | none => []
    | some val =>
      let length : Int := val.length
      let start := if start < 0 then length + start else start
      let stop := if stop < 0 then length + stop else stop
      let start := if start < 0 then 0 else start
      let stop := if stop ≥ length then length - 1 else stop
      if start > stop then []
      else (val.drop start.toNat).take (stop - start + 1).toNat

/-- The local `existing` of Go `Storage.SetRange`: the stored value, or
(for an absent key) a fresh zero-byte buffer of length `offset` when
`offset > 0` and `nil` otherwise. -/
def setRangeExisting (s : Storage) (k : Str) (off : Nat) : Str :=
  match alookup s.data k with
  | some old => old
  | none => if off > 0 then List.replicate off (Char.ofNat 0) else []

/-- The buffer of Go `Storage.SetRange` after the extension step: when
`len(existing) < requiredLength` a zero-filled buffer of the required
length receives a copy of `existing` at its front. -/
def setRangeBuf (s : Storage) (k : Str) (off : Nat) (v : Str) : Str :=
  if (setRangeExisting s k off).length < off + v.length
  then setRangeExisting s k off ++
    List.replicate (off + v.length - (setRangeExisting s k off).length) (Char.ofNat 0)
  else setRangeExisting s k off

/-- The byte sequence written back by Go `Storage.SetRange`: the effect
of `copy(existing[offset:], value)` on the (sufficiently long) buffer. -/
def setRangeVal (s : Storage) (k : Str) (off : Nat) (v : Str) : Str :=
  (setRangeBuf s k off v).take off ++ v ++ (setRangeBuf s k off v).drop (off + v.length)

/-- Go `Storage.SetRange`.  The Go parameter `offset int` is non-negative on
every defined path (a negative offset panics inside `make`/slicing and
the spec makes it a caller validation error), so it is taken as `Nat`.
The expiry and counters maps are untouched. -/
def Storage.setRange (s : Storage) (k : Str) (off : Nat) (v : Str) : Nat × Storage :=
  ((setRangeVal s k off v).length,
    { s with data := ainsert s.data k (setRangeVal s k off v) })

/-- Go `Storage.IncrBy`: `none` in the first component models the Go error
return from `strconv.ParseInt`, in which case no map is written. -/
def Storage.incrBy (s : Storage) (k : Str) (inc : Int) : Option Int × Storage :=
  match alookup s.data k with
  | some val =>
    match parseInt64 val with
    | none => (none, s)
    | some old =>
      let nv := wrap64 (old + inc)
      (some nv, { s with data := ainsert s.data k (intToStr nv),
                         counters := ainsert s.counters k nv })
  | none =>
    (some inc, { s with data := ainsert s.data k (intToStr inc),
                        counters := ainsert s.counters k inc })

/-- Go `Storage.Incr`. -/
def Storage.incr (s : Storage) (k : Str) : Option Int × Storage := s.incrBy k 1

/-- Go `Storage.Decr`. -/
def Storage.decr (s : Storage) (k : Str) : Option Int × Storage := s.incrBy k (-1)

/-- Go `Storage.DecrBy`. -/
def Storage.decrBy (s : Storage) (k : Str) (dec : Int) : Option Int × Storage :=
  s.incrBy k (-dec)

/-- Go `Storage.GetSet`: reads only `data` (the expiry map is never
consulted), swaps in the new value, clears the TTL; the Boolean `existed`
of the Go return is `(old).isSome`. -/
def Storage.getSet (s : Storage) (k v : Str) : Option Str × Storage :=
  let old := alookup s.data k
  (old, { s with data := ainsert s.data k v, expiry := aerase s.expiry k })

/-- Go `Storage.MGet`: one slot per input key, `none` for absent or expired;
no purge, no mutation. -/
def Storage.mGet (s : Storage) (ks : List Str) (now : Nat) : List (Option Str) :=
  ks.map fun k => if s.expiredAt k now then none else alookup s.data k

/-- Go `Storage.MSet`: each pair behaves as `Set` (TTL cleared); the Go map
iteration is determinized to list order. -/
def Storage.mSet (s : Storage) (pairs : List (Str × Str)) : Storage :=
  pairs.foldl (fun acc kv =>
    { acc with data := ainsert acc.data kv.1 kv.2, expiry := aerase acc.expiry kv.1 }) s

/-- Go `Storage.Keys`: every non-expired key of `data` whose name matches
the pattern (map iteration determinized to list order); no purge. -/
def Storage.keys (s : Storage) (pat : Str) (now : Nat) : List Str :=
  (s.data.filter fun kv => !(s.expiredAt kv.1 now) && matchPattern kv.1 pat).map Prod.fst

/-- Go `Storage.FlushAll`. -/
def Storage.flushAll (_ : Storage) : Storage := Storage.empty

/-! ## Command layer (`commands.go`) -/

/-- The closed set of command descriptors: one variant per `...Command`
struct of `commands.go`, carrying the parsed fields.  `SetCommand.expiry`
is in seconds (`Int`, from `strconv.Atoi`; `0` = no TTL);
`SetRangeCommand.offset` and the `GETRANGE` indices are Go `int`. -/
inductive Command
  | set (key val : Str) (expiry : Int)
  | get (key : Str)
  | del (keys : List Str)
  | existsCmd (keys : List Str)
  | append (key val : Str)
  | strlen (key : Str)
  | getRange (key : Str) (start stop : Int)
  | setRange (key : Str) (offset : Int) (value : Str)
  | incr (key : Str)
  | decr (key : Str)
  | incrBy (key : Str) (increment : Int)
  | decrBy (key : Str) (decrement : Int)
  | mget (keys : List Str)
  | mset (pairs : List (Str × Str))
  | getSet (key val : Str)
  | keys (pattern : Str)
  | flushAll
  | hello (value : Str)
  | client (value : Str)
  | ping (message : Str)
deriving DecidableEq, Repr

/-- The `([]byte, error)` pair returned by `Command.Execute`:
`payload = none` models a `nil` byte slice, `error = none` a `nil`
error. -/
structure ExecResult where
  payload : Option Str
  error   : Option Str
deriving DecidableEq, Repr

/-- Go `"\r\n"`. -/
def crlf : Str := ['\r', '\n']

/-- Go `respWriteArray` in `commands.go`: `*<n>\r\n` followed by each item
as a bulk string (`$<len>\r\n<bytes>\r\n` via `resp.Writer.WriteBytes`)
or the null frame `$-1\r\n` (`WriteNull`). -/
def respWriteArray (arr : List (Option Str)) : Str :=
  '*' :: natToStr arr.length ++ crlf ++
    (arr.map fun item => match item with
      | none => "$-1".toList ++ crlf
      | some b => '$' :: natToStr b.length ++ crlf ++ b ++ crlf).flatten

/-- Go `respWriteMap` in `commands.go` (Go map iteration determinized to
list order). -/
def respWriteMap (m : List (Str × Str)) : Str :=
  '%' :: natToStr m.length ++ crlf ++
    (m.map fun kv => '+' :: kv.1 ++ crlf ++ '+' :: kv.2 ++ crlf).flatten

/-- The error text of a failed `strconv.ParseInt` call as surfaced by
the INCR/DECR family; the embedding abstracts strconv's exact wording,
which no theorem below inspects. -/
def parseIntErrMsg : Str := "strconv.ParseInt: invalid syntax".toList

/-- The `DelCommand.Execute` loop: count of keys actually deleted. -/
def execDel (s : Storage) (ks : List Str) : Nat × Storage :=
  ks.foldl (fun acc k =>
    let (existed, s') := acc.2.delete k
    (acc.1 + if existed then 1 else 0, s')) (0, s)

/-- Go `Command.Execute` (all `Execute` methods of `commands.go`),
explicit-state; `now` feeds the storage operations that consult the
clock. -/
def Command.execute : Command → Storage → Nat → ExecResult × Storage
  | .set k v exp, s, now =>
    if exp > 0 then (⟨some "OK".toList, none⟩, s.setWithExpiry k v exp.toNat now)
    else (⟨some "OK".toList, none⟩, s.set k v)
  | .get k, s, now =>
    let (val, s') := s.get k now
    match val with
    | none => (⟨none, some "key not found".toList⟩, s')
    | some v => (⟨some v, none⟩, s')
  | .del ks, s, _ =>
    let (count, s') := execDel s ks
    (⟨some (natToStr count), none⟩, s')
  | .existsCmd ks, s, now =>
    let count := (ks.filter fun k => s.existsKey k now).length
    (⟨some (natToStr count), none⟩, s)
  | .append k v, s, _ =>
    let (len, s') := s.append k v
    (⟨some (natToStr len), none⟩, s')
  | .strlen k, s, now => (⟨some (natToStr (s.strlen k now)), none⟩, s)
  | .getRange k a b, s, now => (⟨some (s.getRange k a b now), none⟩, s)
  | .setRange k off v, s, _ =>
    -- a negative parsed offset panics inside Go's `make`/slicing
    -- (caller validation error per the spec); `toNat` covers the
    -- defined paths
    let (len, s') := s.setRange k off.toNat v
    (⟨some (natToStr len), none⟩, s')
  | .incr k, s, _ =>
    let (r, s') := s.incr k
    match r with
    | none => (⟨none, some parseIntErrMsg⟩, s')
    | some n => (⟨some (intToStr n), none⟩, s')
  | .decr k, s, _ =>
    let (r, s') := s.decr k
    match r with
    | none => (⟨none, some parseIntErrMsg⟩, s')
    | some n => (⟨some (intToStr n), none⟩, s')
  | .incrBy k inc, s, _ =>
    let (r, s') := s.incrBy k inc
    match r with
    | none => (⟨none, some parseIntErrMsg⟩, s')
    | some n => (⟨some (intToStr n), none⟩, s')
  | .decrBy k dec, s, _ =>
    let (r, s') := s.decrBy k dec
    match r with
    | none => (⟨none, some parseIntErrMsg⟩, s')
    | some n => (⟨some (intToStr n), none⟩, s')
  | .mget ks, s, now => (⟨some (respWriteArray (s.mGet ks now)), none⟩, s)
  | .mset pairs, s, _ => (⟨some "OK".toList, none⟩, s.mSet pairs)
  | .getSet k v, s, _ =>
    let (old, s') := s.getSet k v
    match old with
    | none => (⟨none, some "key not found".toList⟩, s')
    | some o => (⟨some o, none⟩, s')
  | .keys pat, s, now =>
    (⟨some (respWriteArray ((s.keys pat now).map some)), none⟩, s)
  | .flushAll, s, _ => (⟨some "OK".toList, none⟩, s.flushAll)
  | .hello _, s, _ =>
    (⟨some (respWriteMap
      [("server".toList, "redis-clone".toList),
       ("version".toList, "1.0.0".toList),
       ("proto".toList, "2".toList),
       ("mode".toList, "standalone".toList)]), none⟩, s)
  | .client _, s, _ => (⟨some "OK".toList, none⟩, s)
  | .ping msg, s, _ =>
    if msg = [] then (⟨some "PONG".toList, none⟩, s)
    else (⟨some msg, none⟩, s)

/-! ## Response dispatch (`handlers.go`) -/

/-- Go `isRESPFormatted` from `handlers.go`. -/
def isRESPFormatted (data : Str) : Bool :=
  match data with
  | [] => false
  | c :: _ => c = '+' ∨ c = '-' ∨ c = ':' ∨ c = '$' ∨ c = '*' ∨ c = '%'

/-- One wire response frame as selected by `handleMessage`:
`error` = `resp.Writer.WriteError` (an `-...` frame), `raw` = the
pre-framed bytes sent verbatim via `Peer.Send`, `bulk` =
`WriteBytes` (a `$...` frame), `null` = `WriteNull` (`$-1\r\n`). -/
inductive Frame
  | error (msg : Str)
  | raw (bytes : Str)
  | bulk (bytes : Str)
  | null
deriving DecidableEq, Repr

/-- Go `Server.handleMessage` from `handlers.go`: execute the command, then
pick the response frame (execution error ⇒ error frame prefixed
`"ERR "`; non-nil result ⇒ raw or bulk; nil result ⇒ null frame). -/
def handleMessage (s : Storage) (c : Command) (now : Nat) : Frame × Storage :=
  let (r, s') := c.execute s now
  match r.error with
  | some e => (Frame.error ("ERR ".toList ++ e), s')
  | none =>
    match r.payload with
    | some bytes =>
      if isRESPFormatted bytes then (Frame.raw bytes, s')
      else (Frame.bulk bytes, s')
    | none => (Frame.null, s')

/-! ## Request parser (`peer.go`, and the full dispatcher kept in the
repository's `readLoop`/`parseCommand` variant, `src/unnamed/part_004`).
A decoded request is its list of byte-string tokens. -/

/-- Go `strings.ToUpper` on the ASCII command names involved. -/
def toUpperStr (s : Str) : Str := s.map Char.toUpper

def parseSetCommand (arr : List Str) : Except Str Command :=
  if arr.length < 3 then
    .error "wrong number of arguments for 'SET' command".toList
  else if arr.length ≥ 5 ∧ toUpperStr (arr.getD 3 []) = "EX".toList then
    match parseInt64 (arr.getD 4 []) with
    | none => .error "invalid expire time".toList
    | some seconds => .ok (.set (arr.getD 1 []) (arr.getD 2 []) seconds)
  else .ok (.set (arr.getD 1 []) (arr.getD 2 []) 0)

def parseGetCommand (arr : List Str) : Except Str Command :=
  if arr.length ≠ 2 then
    .error "wrong number of arguments for 'GET' command".toList
  else .ok (.get (arr.getD 1 []))

def parseDelCommand (arr : List Str) : Except Str Command :=
  if arr.length < 2 then
    .error "wrong number of arguments for 'DEL' command".toList
  else .ok (.del (arr.drop 1))

def parseExistsCommand (arr : List Str) : Except Str Command :=
  if arr.length < 2 then
    .error "wrong number of arguments for 'EXISTS' command".toList
  else .ok (.existsCmd (arr.drop 1))

def parseAppendCommand (arr : List Str) : Except Str Command :=
  if arr.length ≠ 3 then
    .error "wrong number of arguments for 'APPEND' command".toList
  else .ok (.append (arr.getD 1 []) (arr.getD 2 []))

def parseStrlenCommand (arr : List Str) : Except Str Command :=
  if arr.length ≠ 2 then
    .error "wrong number of arguments for 'STRLEN' command".toList
  else .ok (.strlen (arr.getD 1 []))

def parseGetRangeCommand (arr : List Str) : Except Str Command :=
  if arr.length ≠ 4 then
    .error "wrong number of arguments for 'GETRANGE' command".toList
  else match parseInt64 (arr.getD 2 []) with
    | none => .error "invalid start index".toList
    | some start =>
      match parseInt64 (arr.getD 3 []) with
      | none => .error "invalid end index".toList
      | some stop => .ok (.getRange (arr.getD 1 []) start stop)

def parseSetRangeCommand (arr : List Str) : Except Str Command :=
  if arr.length ≠ 4 then
    .error "wrong number of arguments for 'SETRANGE' command".toList
  else match parseInt64 (arr.getD 2 []) with
    | none => .error "invalid offset".toList
    | some off => .ok (.setRange (arr.getD 1 []) off (arr.getD 3 []))

def parseIncrCommand (arr : List Str) : Except Str Command :=
  if arr.length ≠ 2 then
    .error "wrong number of arguments for 'INCR' command".toList
  else .ok (.incr (arr.getD 1 []))

def parseDecrCommand (arr : List Str) : Except Str Command :=
  if arr.length ≠ 2 then
    .error "wrong number of arguments for 'DECR' command".toList
  else .ok (.decr (arr.getD 1 []))

def parseIncrByCommand (arr : List Str) : Except Str Command :=
  if arr.length ≠ 3 then
    .error "wrong number of arguments for 'INCRBY' command".toList
  else match parseInt64 (arr.getD 2 []) with
    | none => .error "invalid increment value".toList
    | some inc => .ok (.incrBy (arr.getD 1 []) inc)

def parseDecrByCommand (arr : List Str) : Except Str Command :=
  if arr.length ≠ 3 then
    .error "wrong number of arguments for 'DECRBY' command".toList
  else match parseInt64 (arr.getD 2 []) with
    | none => .error "invalid decrement value".toList
    | some dec => .ok (.decrBy (arr.getD 1 []) dec)

def parseMGetCommand (arr : List Str) : Except Str Command :=
  if arr.length < 2 then
    .error "wrong number of arguments for 'MGET' command".toList
  else .ok (.mget (arr.drop 1))

/-- The alternating key/value walk of `parseMSetCommand`. -/
def msetPairs : List Str → List (Str × Str)
  | k :: v :: rest => (k, v) :: msetPairs rest
  | _ => []

def parseMSetCommand (arr : List Str) : Except Str Command :=
  if arr.length < 3 ∨ arr.length % 2 = 0 then
    .error "wrong number of arguments for 'MSET' command".toList
  else .ok (.mset (msetPairs (arr.drop 1)))

def parseGetSetCommand (arr : List Str) : Except Str Command :=
  if arr.length ≠ 3 then
    .error "wrong number of arguments for 'GETSET' command".toList
  else .ok (.getSet (arr.getD 1 []) (arr.getD 2 []))

def parseKeysCommand (arr : List Str) : Except Str Command :=
  if arr.length ≠ 2 then
    .error "wrong number of arguments for 'KEYS' command".toList
  else .ok (.keys (arr.getD 1 []))

def parseFlushAllCommand (arr : List Str) : Except Str Command :=
  if arr.length ≠ 1 then
    .error "wrong number of arguments for 'FLUSHALL' command".toList
  else .ok .flushAll

def parseHelloCommand (arr : List Str) : Except Str Command :=
  .ok (.hello (if arr.length > 1 then arr.getD 1 [] else "2".toList))

def parseClientCommand (arr : List Str) : Except Str Command :=
  .ok (.client (if arr.length > 1 then arr.getD 1 [] else []))

def parsePingCommand (arr : List Str) : Except Str Command :=
  .ok (.ping (if arr.length > 1 then arr.getD 1 [] else []))

/-- The full `parseCommand` dispatcher (the `switch cmdName` over every
supported command, as kept in `src/unnamed/part_004`). -/
def parseCommandFull (arr : List Str) : Except Str Command :=
  match arr with
  | [] => .error "empty command".toList
  | first :: _ =>
    let cmdName := toUpperStr first
    if cmdName = "SET".toList then parseSetCommand arr
    else if cmdName = "GET".toList then parseGetCommand arr
    else if cmdName = "DEL".toList then parseDelCommand arr
    else if cmdName = "EXISTS".toList then parseExistsCommand arr
    else if cmdName = "APPEND".toList then parseAppendCommand arr
    else if cmdName = "STRLEN".toList then parseStrlenCommand arr
    else if cmdName = "GETRANGE".toList then parseGetRangeCommand arr
    else if cmdName = "SETRANGE".toList then parseSetRangeCommand arr
    else if cmdName = "INCR".toList then parseIncrCommand arr
    else if cmdName = "DECR".toList then parseDecrCommand arr
    else if cmdName = "INCRBY".toList then parseIncrByCommand arr
    else if cmdName = "DECRBY".toList then parseDecrByCommand arr
    else if cmdName = "MGET".toList then parseMGetCommand arr
    else if cmdName = "MSET".toList then parseMSetCommand arr
    else if cmdName = "GETSET".toList then parseGetSetCommand arr
    else if cmdName = "KEYS".toList then parseKeysCommand arr
    else if cmdName = "FLUSHALL".toList then parseFlushAllCommand arr
    else if cmdName = "HELLO".toList then parseHelloCommand arr
    else if cmdName = "CLIENT".toList then parseClientCommand arr
    else if cmdName = "PING".toList then parsePingCommand arr
    else .error ("unknown command '".toList ++ cmdName ++ ['\''])

/-- The `parseCommand` of `src/peer.go` as committed: its `switch` holds
only the `default` arm, so every non-empty request is rejected as an
unknown command. -/
def parseCommandHead (arr : List Str) : Except Str Command :=
  match arr with
  | [] => .error "empty command".toList
  | first :: _ =>
    .error ("unknown commands '".toList ++ toUpperStr first ++ ['\''])

/-- What `readLoop` does with one decoded request: write an error frame
back, hand the command to the server (the only path that can reach the
storage engine), or drop the request on the floor.  None of these closes
the connection (`readLoop` `continue`s in every case). -/
inductive ReadAction
  | sendError (msg : Str)
  | dispatch (c : Command)
  | drop
deriving DecidableEq, Repr

/-- One iteration of `readLoop` in `src/peer.go` as committed: the
error-frame write is commented out, so a parse error is silently
dropped. -/
def readLoopStep (tokens : List Str) : ReadAction :=
  match parseCommandHead tokens with
  | .error _ => ReadAction.drop
  | .ok c => ReadAction.dispatch c

/-- One iteration of the full `readLoop` variant
(`src/unnamed/part_004`): a parse error is answered with
`respWriteError("ERR " + err)` on the same connection. -/
def readLoopStepFull (tokens : List Str) : ReadAction :=
  match parseCommandFull tokens with
  | .error e => ReadAction.sendError ("ERR ".toList ++ e)
  | .ok c => ReadAction.dispatch c


/-! ## Claim-side model definitions (each follows the spec's words, for
comparison against the source-derived definitions above) -/

/-- Modelled from the spec's words (the inner-segment condition of the
`keys` pattern contract): each literal segment is found in the key, in
order. -/
def occursInOrder : List Str → Str → Bool
  | [], _ => true
  | p :: ps, k =>
    match strIndex k p with
    | none => false
    | some i => occursInOrder ps (k.drop (i + p.length))

/-- Modelled from the spec's words: "a leading literal segment must
match the key's prefix, a trailing literal segment must match the key's
suffix (unless the pattern ends in `*`), and all inner literal segments
between consecutive `*` must be found in order". -/
def globClaimMatch (key pattern : Str) : Bool :=
  if ¬ pattern.contains '*' then key = pattern
  else
    let parts := splitOnStar pattern
    (parts.headD []).isPrefixOf key &&
    (if pattern.getLast? = some '*' then true
     else (parts.getLastD []).isSuffixOf key) &&
    occursInOrder ((parts.drop 1).dropLast) key

/-- Modelled from the spec's words: "Both bounds are clamped into
`[0, length-1]`; if after clamping `start > end` ... the result is an
empty byte sequence", otherwise the inclusive substring, with negative
indices counted from the end. -/
def getRangeClaim (val : Str) (start stop : Int) : Str :=
  let length : Int := val.length
  let start := if start < 0 then length + start else start
  let stop := if stop < 0 then length + stop else stop
  let start := max 0 (min start (length - 1))
  let stop := max 0 (min stop (length - 1))
  if start > stop then []
  else (val.drop start.toNat).take (stop - start + 1).toNat

/-- The amended C7 bound computation: after mapping negative indices
from the end, `start` is clamped only from below (to 0) and `stop` only
from above (to `length - 1`). -/
def rangeSlice (val : Str) (start stop : Int) : Str :=
  let length : Int := val.length
  let start := if start < 0 then length + start else start
  let stop := if stop < 0 then length + stop else stop
  let start := max start 0
  let stop := min stop (length - 1)
  if start > stop then []
  else (val.drop start.toNat).take (stop - start + 1).toNat

/-! ## Concrete stores used by witnesses and counterexamples -/

/-- A store holding key `k` (value `v`) with expiry instant 1: created
at time 0 with a 1-second TTL, hence expired at any `now > 1`. -/
def expStore : Storage := Storage.empty.setWithExpiry ['k'] ['v'] 1 0

/-- A store whose key `k` carries a numeric-cache entry (from
`IncrBy`) and an expiry instant 1. -/
def cntStore : Storage := ((Storage.empty.incrBy ['k'] 5).2).setWithExpiry ['k'] ['v'] 1 0

/-- A TTL-free store holding key `k` with value `hello`. -/
def helloStore : Storage := Storage.empty.set ['k'] "hello".toList


/-- A store whose key `n` holds the decimal string `5`. -/
def numStore : Storage := Storage.empty.set ['n'] "5".toList

/-- A store whose key `n` holds the non-numeric value `a`. -/
def badStore : Storage := Storage.empty.set ['n'] ['a']


/-! ## Association-list laws -/

theorem alookup_ainsert_self {α : Type} (l : List (Str × α)) (k : Str) (v : α) :
    alookup (ainsert l k v) k = some v := by
  induction l with
  | nil => simp [ainsert, alookup]
  | cons hd t ih =>
    obtain ⟨a, b⟩ := hd
    by_cases hk : a = k
    · simp [ainsert, hk, alookup]
    · simp [ainsert, hk, alookup, ih]

theorem alookup_ainsert_ne {α : Type} (l : List (Str × α)) (k k' : Str) (v : α)
    (h : k ≠ k') : alookup (ainsert l k v) k' = alookup l k' := by
  induction l with
  | nil => simp [ainsert, alookup, h]
  | cons hd t ih =>
    obtain ⟨a, b⟩ := hd
    by_cases hk : a = k
    · subst hk
      simp [ainsert, alookup, h]
    · by_cases hk' : a = k'
      · simp [ainsert, hk, alookup, hk', Ne.symm h]
      · simp [ainsert, hk, alookup, hk', ih]

theorem alookup_aerase_self {α : Type} (l : List (Str × α)) (k : Str) :
    alookup (aerase l k) k = none := by
  induction l with
  | nil => simp [aerase, alookup]
  | cons hd t ih =>
    obtain ⟨a, b⟩ := hd
    by_cases hk : a = k
    · simp [aerase, hk, ih]
    · simp [aerase, hk, alookup, ih]

theorem alookup_aerase_ne {α : Type} (l : List (Str × α)) (k k' : Str)
    (h : k ≠ k') : alookup (aerase l k) k' = alookup l k' := by
  induction l with
  | nil => simp [aerase]
  | cons hd t ih =>
    obtain ⟨a, b⟩ := hd
    by_cases hk : a = k
    · subst hk
      simp [aerase, alookup, ih, h]
    · by_cases hk' : a = k'
      · simp [aerase, hk, alookup, hk', Ne.symm h]
      · simp [aerase, hk, alookup, hk', ih]

/-! ## Claim theorems -/

/-- C1: the claim says GET on a missing key must produce the null
response frame; the code (`GetCommand.Execute` returning
`fmt.Errorf("key not found")`, dispatched by `handleMessage`) writes a
protocol ERROR frame instead, contradicting the repository's own README
(`a GET on a missing key would return $-1\r\n, indicating a null`) and
the doc comment on `GetCommand.Execute`. -/
theorem c1_get_missing_writes_error_frame :
    handleMessage Storage.empty (Command.get ['k']) 0 =
      (Frame.error "ERR key not found".toList, Storage.empty) ∧
    Frame.error "ERR key not found".toList ≠ Frame.null := by
  refine ⟨rfl, by decide⟩

/-- C2: on a parse error (bad arity, bad integer literal, unknown
command) the committed `readLoop` of `src/peer.go` silently drops the
request (its error-frame write is commented out, and its `parseCommand`
switch holds only the `default` arm), while the repository's full
`readLoop` variant (`src/unnamed/part_004`), whose documentation the
claim matches, answers with an `ERR` frame on the same connection;
neither path ever dispatches a command, so no storage call occurs. -/
theorem c2_parse_error_dropped_not_reported :
    readLoopStep ["GET".toList] = ReadAction.drop ∧
    readLoopStepFull ["GET".toList] =
      ReadAction.sendError "ERR wrong number of arguments for 'GET' command".toList ∧
    readLoopStepFull ["INCRBY".toList, ['k'], "abc".toList] =
      ReadAction.sendError "ERR invalid increment value".toList ∧
    readLoopStepFull ["FOO".toList] =
      ReadAction.sendError "ERR unknown command 'FOO'".toList := by
  refine ⟨rfl, rfl, rfl, rfl⟩

/-- C3 counterexample: GETSET on a missing key reports an execution
error AND still mutates the store (`Storage.GetSet` installs the new
value before `GetSetCommand.Execute` checks `exists`), so the
all-or-nothing claim is false at this input. -/
theorem c3_counterexample :
    ((Command.getSet ['k'] ['v']).execute Storage.empty 0).1.error =
      some "key not found".toList ∧
    ((Command.getSet ['k'] ['v']).execute Storage.empty 0).2 ≠ Storage.empty ∧
    alookup (((Command.getSet ['k'] ['v']).execute Storage.empty 0).2).data ['k'] =
      some ['v'] := by
  refine ⟨rfl, by decide, rfl⟩

/-- C4 counterexample: key `k` of `expStore` is expired at time 2 and
the `exists` read path reports it absent, yet the key's storage is not
reclaimed by that touch — `Storage.Exists` only reads the maps (it
returns a bare Boolean and performs no deletion), so `k` is still in
the `values` map afterwards; the claim that the first touch by any read
path purges the key is false. -/
theorem c4_counterexample :
    expStore.expiredAt ['k'] 2 = true ∧
    expStore.existsKey ['k'] 2 = false ∧
    alookup expStore.data ['k'] = some ['v'] := by
  refine ⟨rfl, rfl, rfl⟩

/-- C5 counterexample: implicit deletion via lazy expiration
(`Storage.Get` on the expired key of `cntStore`) purges `values` and
`expireAt` but leaves the stale `lastNumeric` entry, so the key is not
purged from all three maps. -/
theorem c5_counterexample :
    (cntStore.get ['k'] 2).1 = none ∧
    alookup ((cntStore.get ['k'] 2).2).data ['k'] = none ∧
    alookup ((cntStore.get ['k'] 2).2).expiry ['k'] = none ∧
    alookup ((cntStore.get ['k'] 2).2).counters ['k'] = some 5 := by
  refine ⟨rfl, rfl, rfl, rfl⟩

/-- C6 counterexample: for pattern `a*bc` and key `abcbc` the claim's
characterization holds (leading literal `a` is a prefix, trailing
literal `bc` is a suffix, there are no inner segments — see
`globClaimMatch`), yet `matchPattern` rejects the key: its scan takes
the FIRST occurrence of `bc` (ending at index 3) and then requires the
scan to end exactly at the end of the key. -/
theorem c6_counterexample :
    globClaimMatch "abcbc".toList "a*bc".toList = true ∧
    matchPattern "abcbc".toList "a*bc".toList = false := by
  refine ⟨rfl, rfl⟩

/-- C7 counterexample: with stored value `hello`, `getRange k 10 20`
returns the empty sequence (the code never clamps `start` from above),
while the claim's clamp-both-bounds-into-`[0,length-1]` semantics
(`getRangeClaim`) yields `o`. -/
theorem c7_counterexample :
    helloStore.getRange ['k'] 10 20 0 = [] ∧
    getRangeClaim "hello".toList 10 20 = "o".toList ∧
    "o".toList ≠ ([] : Str) := by
  refine ⟨rfl, rfl, by decide⟩

/-- C9 counterexample: the setRange/getRange round-trip fails (a) for a
key whose TTL has passed — `SetRange` neither checks nor clears the
expiry, and the subsequent `GetRange` then reports the key expired and
returns empty instead of `ab` — and (b) for an empty `v` with offset 0
on a non-empty stored value, where `o + len(v) - 1 = -1` is interpreted
as a from-the-end index and the whole value is returned instead of the
empty sequence. -/
theorem c9_counterexample :
    (((expStore.setRange ['k'] 0 "ab".toList).2).getRange ['k'] 0 (0 + 2 - 1) 2 = [] ∧
      "ab".toList ≠ ([] : Str)) ∧
    (((helloStore.setRange ['k'] 0 []).2).getRange ['k'] 0 (0 + 0 - 1) 0 =
        "hello".toList ∧
      "hello".toList ≠ ([] : Str)) := by
  exact ⟨⟨rfl, by decide⟩, ⟨rfl, by decide⟩⟩

/-- C10: `Storage.GetSet` never consults the expiration map — for a key
whose expiry instant has passed but which is still in `values`, it
returns the stale value with `existed = true`, installs the new value
and clears the TTL. -/
theorem c10_getSet_ignores_expiry (s : Storage) (k v old : Str) (t now : Nat)
    (hd : alookup s.data k = some old) (he : alookup s.expiry k = some t)
    (hx : now > t) :
    (s.getSet k v).1 = some old ∧
    ((s.getSet k v).1).isSome = true ∧
    alookup ((s.getSet k v).2).data k = some v ∧
    alookup ((s.getSet k v).2).expiry k = none := by
  refine ⟨by simp [Storage.getSet, hd], by simp [Storage.getSet, hd],
    by simp [Storage.getSet, alookup_ainsert_self],
    by simp [Storage.getSet, alookup_aerase_self]⟩

/-- C10 witness: `expStore` at time 2 (key `k` expired at instant 1 but
still stored). -/
theorem c10_getSet_ignores_expiry_witness :
    (expStore.getSet ['k'] ['n']).1 = some ['v'] ∧
    alookup ((expStore.getSet ['k'] ['n']).2).expiry ['k'] = none := by
  have h := c10_getSet_ignores_expiry expStore ['k'] ['n'] ['v'] 1 2
    (by decide) (by decide) (by decide)
  exact ⟨h.1, h.2.2.2⟩

/-- C8: `Storage.IncrBy` reads the current integer value (0 when the
key is absent), adds the delta (Go `int64` addition, i.e. with
two's-complement wraparound), stores the decimal string back in
`values`, updates the numeric cache and returns the new value; when an
existing value does not parse as a base-10 signed 64-bit integer it
reports the error and leaves the store exactly unchanged. -/
theorem c8_incrBy_contract (s : Storage) (k : Str) (inc : Int) :
    (alookup s.data k = none →
      (s.incrBy k inc).1 = some inc ∧
      alookup (s.incrBy k inc).2.data k = some (intToStr inc) ∧
      alookup (s.incrBy k inc).2.counters k = some inc ∧
      (s.incrBy k inc).2.expiry = s.expiry) ∧
    (∀ str old, alookup s.data k = some str → parseInt64 str = some old →
      (s.incrBy k inc).1 = some (wrap64 (old + inc)) ∧
      alookup (s.incrBy k inc).2.data k = some (intToStr (wrap64 (old + inc))) ∧
      alookup (s.incrBy k inc).2.counters k = some (wrap64 (old + inc)) ∧
      (s.incrBy k inc).2.expiry = s.expiry) ∧
    (∀ str, alookup s.data k = some str → parseInt64 str = none →
      s.incrBy k inc = (none, s)) := by
  refine ⟨fun h => ?_, fun str old h hp => ?_, fun str h hp => ?_⟩
  · simp [Storage.incrBy, h, alookup_ainsert_self]
  · simp [Storage.incrBy, h, hp, alookup_ainsert_self]
  · simp [Storage.incrBy, h, hp]

/-- C8 witness: increments from absence, from the stored string `5`,
and the failing parse of the stored value `a`. -/
theorem c8_incrBy_contract_witness :
    alookup (Storage.empty.incrBy ['k'] 7).2.data ['k'] = some (intToStr 7) ∧
    (numStore.incrBy ['n'] 3).1 = some (wrap64 (5 + 3)) ∧
    badStore.incrBy ['n'] 1 = (none, badStore) := by
  refine ⟨((c8_incrBy_contract Storage.empty ['k'] 7).1 (by decide)).2.1,
    ((c8_incrBy_contract numStore ['n'] 3).2.1 "5".toList 5 (by decide) (by decide)).1,
    (c8_incrBy_contract badStore ['n'] 1).2.2 ['a'] (by decide) (by decide)⟩

/-- C3 amended: an execution error from the INCR/DECR family leaves the
store unchanged, and GET on a key absent from both `values` and
`expireAt` errors with the store unchanged; however GET on an expired
key purges that key (of `values` and `expireAt`) as a side effect of
the erroring call, and GETSET on a missing key reports an error but
still installs the new value and clears any TTL. -/
theorem c3_amended :
    (∀ (s : Storage) (k : Str) (inc : Int) (v : Str),
      alookup s.data k = some v → parseInt64 v = none →
      s.incrBy k inc = (none, s)) ∧
    (∀ (s : Storage) (k : Str) (now : Nat),
      alookup s.data k = none → alookup s.expiry k = none →
      (Command.get k).execute s now =
        (⟨none, some "key not found".toList⟩, s)) ∧
    (∀ (s : Storage) (k : Str) (t now : Nat),
      alookup s.expiry k = some t → now > t →
      (Command.get k).execute s now =
        (⟨none, some "key not found".toList⟩,
          { s with data := aerase s.data k, expiry := aerase s.expiry k })) ∧
    (∀ (s : Storage) (k v : Str) (now : Nat),
      alookup s.data k = none →
      (Command.getSet k v).execute s now =
        (⟨none, some "key not found".toList⟩,
          { s with data := ainsert s.data k v, expiry := aerase s.expiry k })) := by
  refine ⟨fun s k inc v h hp => ?_, fun s k now hd he => ?_,
    fun s k t now he hx => ?_, fun s k v now hd => ?_⟩
  · simp [Storage.incrBy, h, hp]
  · simp [Command.execute, Storage.get, Storage.expiredAt, hd, he]
  · simp [Command.execute, Storage.get, Storage.expiredAt, he, hx]
  · simp [Command.execute, Storage.getSet, hd]

/-- C3 amended, witness: a failing INCRBY on `badStore`, GET misses on
the empty store and on the expired key of `expStore`, and the mutating
erroring GETSET on the empty store. -/
theorem c3_amended_witness :
    badStore.incrBy ['n'] 2 = (none, badStore) ∧
    (Command.get ['m']).execute Storage.empty 0 =
      (⟨none, some "key not found".toList⟩, Storage.empty) ∧
    (Command.get ['k']).execute expStore 2 =
      (⟨none, some "key not found".toList⟩,
        { expStore with data := aerase expStore.data ['k'],
                        expiry := aerase expStore.expiry ['k'] }) ∧
    (Command.getSet ['k'] ['v']).execute Storage.empty 0 =
      (⟨none, some "key not found".toList⟩,
        { Storage.empty with data := ainsert Storage.empty.data ['k'] ['v'],
                             expiry := aerase Storage.empty.expiry ['k'] }) := by
  refine ⟨c3_amended.1 badStore ['n'] 2 ['a'] (by decide) (by decide),
    c3_amended.2.1 Storage.empty ['m'] 0 (by decide) (by decide),
    c3_amended.2.2.1 expStore ['k'] 1 2 (by decide) (by decide),
    c3_amended.2.2.2 Storage.empty ['k'] ['v'] 0 (by decide)⟩

/-- C5 amended: an explicit delete that finds the key purges it from
all three maps; implicit deletion via lazy expiration (in `Get`) purges
only `values` and `expireAt`, leaving the `lastNumeric` map untouched
(a stale numeric-cache entry may remain). -/
theorem c5_amended :
    (∀ (s : Storage) (k v : Str), alookup s.data k = some v →
      (s.delete k).1 = true ∧
      alookup ((s.delete k).2).data k = none ∧
      alookup ((s.delete k).2).expiry k = none ∧
      alookup ((s.delete k).2).counters k = none) ∧
    (∀ (s : Storage) (k : Str) (t now : Nat),
      alookup s.expiry k = some t → now > t →
      (s.get k now).1 = none ∧
      alookup ((s.get k now).2).data k = none ∧
      alookup ((s.get k now).2).expiry k = none ∧
      ((s.get k now).2).counters = s.counters) := by
  refine ⟨fun s k v h => ?_, fun s k t now he hx => ?_⟩
  · simp [Storage.delete, h, alookup_aerase_self]
  · simp [Storage.get, Storage.expiredAt, he, hx, alookup_aerase_self]

/-- C5 amended, witness: deleting the present key of `cntStore` purges
all three maps; lazily expiring it via `Get` leaves its numeric-cache
entry. -/
theorem c5_amended_witness :
    (cntStore.delete ['k']).1 = true ∧
    alookup ((cntStore.delete ['k']).2).counters ['k'] = none ∧
    alookup ((cntStore.get ['k'] 2).2).data ['k'] = none ∧
    ((cntStore.get ['k'] 2).2).counters = cntStore.counters := by
  have h1 := c5_amended.1 cntStore ['k'] ['v'] (by decide)
  have h2 := c5_amended.2 cntStore ['k'] 1 2 (by decide) (by decide)
  exact ⟨h1.1, h1.2.2.2, h2.2.1, h2.2.2.2⟩

/-- C4 amended: once a key's expiration instant has passed, no read
path (`get`, `exists`, `multiGet`, `keys`, `strlen`, `range`) reports
it as present; but only `get` reclaims the space (purging `values` and
`expireAt`) when it touches the key — the other read paths perform no
purge (they are pure readers), so the expired entry stays until `get`
or an explicit delete touches it. -/
theorem c4_amended (s : Storage) (k : Str) (t now : Nat)
    (he : alookup s.expiry k = some t) (hx : now > t) :
    s.get k now =
      (none, { s with data := aerase s.data k, expiry := aerase s.expiry k }) ∧
    s.existsKey k now = false ∧
    s.strlen k now = 0 ∧
    (∀ a b : Int, s.getRange k a b now = []) ∧
    (∀ (ks : List Str) (i : Nat), ks[i]? = some k →
      (s.mGet ks now)[i]? = some none) ∧
    (∀ pat, k ∉ s.keys pat now) := by
  have hexp : s.expiredAt k now = true := by simp [Storage.expiredAt, he, hx]
  refine ⟨by simp [Storage.get, hexp], by simp [Storage.existsKey, hexp],
    by simp [Storage.strlen, hexp], fun a b => by simp [Storage.getRange, hexp],
    fun ks i hi => ?_, fun pat hmem => ?_⟩
  · simp [Storage.mGet, List.getElem?_map, hi, hexp]
  · simp only [Storage.keys, List.mem_map, List.mem_filter] at hmem
    obtain ⟨⟨k', v⟩, ⟨_, hp⟩, hk⟩ := hmem
    subst hk
    simp [hexp] at hp

/-- C4 amended, witness: `expStore` at time 2. -/
theorem c4_amended_witness :
    expStore.existsKey ['k'] 2 = false ∧
    expStore.strlen ['k'] 2 = 0 ∧
    expStore.getRange ['k'] 0 10 2 = [] ∧
    (expStore.mGet [['k']] 2)[0]? = some none ∧
    ['k'] ∉ expStore.keys ['*'] 2 := by
  have h := c4_amended expStore ['k'] 1 2 (by decide) (by decide)
  exact ⟨h.2.1, h.2.2.1, h.2.2.2.1 0 10, h.2.2.2.2.1 [['k']] 0 (by decide),
    h.2.2.2.2.2 ['*']⟩

/-- C7 amended: `Storage.GetRange` maps negative indices from the end,
then clamps `start` only from below (to 0) and `end` only from above
(to `length - 1`); if then `start > end`, or the key is absent or
expired, the result is empty, otherwise the inclusive substring
(`rangeSlice` states this amended bound computation). -/
theorem c7_amended (s : Storage) (k : Str) (a b : Int) (now : Nat) :
    s.getRange k a b now =
      (if s.expiredAt k now then []
       else match alookup s.data k with
         | none => []
         | some val => rangeSlice val a b) := by
  have h1 : ∀ x : Int, (if x < 0 then (0 : Int) else x) = max x 0 := by
    intro x; split <;> omega
  have h2 : ∀ x L : Int, (if x ≥ L then L - 1 else x) = min x (L - 1) := by
    intro x L; split <;> omega
  unfold Storage.getRange rangeSlice
  cases hexp : s.expiredAt k now
  · cases hd : alookup s.data k
    · simp
    · simp only [Bool.false_eq_true, if_false]
      simp only [h1, h2]
  · simp

/-- Go `strings.Index` finds position 0 exactly when the needle is a
prefix of the haystack. -/
theorem strIndex_eq_some_zero (xs pat : Str) :
    strIndex xs pat = some 0 ↔ pat.isPrefixOf xs = true := by
  rw [strIndex.eq_def]
  by_cases h : pat.isPrefixOf xs
  · simp [h]
  · simp only [h, Bool.false_eq_true, iff_false, if_neg, Bool.not_eq_true]
    cases xs with
    | nil => simp
    | cons c t =>
      simp only []
      cases hh : strIndex t pat with
      | none => simp [hh]
      | some n => simp [hh]

/-- Auxiliary: the `matchPattern` part-scan on the split of `user:*`
when the leading literal does not occur in the key. -/
theorem matchLoop_userStar_none (key : Str)
    (h : strIndex key "user:".toList = none) :
    matchLoop key ["user:".toList, []] 0 0 = none := by
  rw [matchLoop.eq_def]
  simp only []
  rw [if_neg (by decide)]
  simp only [List.drop_zero, h]

/-- Auxiliary: the part-scan when the leading literal occurs first at
position 0. -/
theorem matchLoop_userStar_zero (key : Str)
    (h : strIndex key "user:".toList = some 0) :
    matchLoop key ["user:".toList, []] 0 0 = some ("user:".toList.length) := by
  rw [matchLoop.eq_def]
  simp only []
  rw [if_neg (by decide)]
  simp only [List.drop_zero, h]
  rw [if_neg (by simp)]
  simp [matchLoop]

/-- Auxiliary: the part-scan when the leading literal occurs first at a
positive position (the `i == 0 && index != 0` rejection). -/
theorem matchLoop_userStar_pos (key : Str) (idx : Nat)
    (h : strIndex key "user:".toList = some idx) (hi : idx ≠ 0) :
    matchLoop key ["user:".toList, []] 0 0 = none := by
  rw [matchLoop.eq_def]
  simp only []
  rw [if_neg (by decide)]
  simp only [List.drop_zero, h]
  rw [if_pos ⟨trivial, hi⟩]

/-- The `matchPattern` scan on the pattern `user:*` accepts exactly the
keys with prefix `user:`. -/
theorem matchPattern_userStar (key : Str) :
    matchPattern key "user:*".toList = "user:".toList.isPrefixOf key := by
  have hpre := strIndex_eq_some_zero key "user:".toList
  unfold matchPattern
  rw [if_neg (by decide), if_neg (by decide),
    show splitOnStar "user:*".toList = ["user:".toList, ([] : Str)] from by decide]
  cases h : strIndex key "user:".toList with
  | none =>
    rw [matchLoop_userStar_none key h]
    rw [h] at hpre
    have hf : "user:".toList.isPrefixOf key = false := by
      cases hb : "user:".toList.isPrefixOf key
      · rfl
      · exact absurd (hpre.mpr hb) (by simp)
    rw [hf]
  | some idx =>
    rw [h] at hpre
    by_cases hi : idx = 0
    · subst hi
      rw [matchLoop_userStar_zero key h]
      simp only []
      rw [if_pos (by decide), hpre.mp rfl]
    · rw [matchLoop_userStar_pos key idx h hi]
      have hf : "user:".toList.isPrefixOf key = false := by
        cases hb : "user:".toList.isPrefixOf key
        · rfl
        · exact absurd (Option.some.inj (hpre.mpr hb)) hi
      rw [hf]

/-- C6 amended: `matchPattern` is an anchored greedy scan — each
non-empty literal segment is located at its FIRST occurrence at or
after the cursor (the leading segment must sit at position 0), and
unless the pattern ends in `*` the scan must end exactly at the key's
end — which is stricter than the claim's prefix/suffix/inner-order
characterization; the claim's `keys("user:*")` consequence does hold
exactly: a key is returned iff it is stored, not expired, and begins
with `user:`. -/
theorem c6_amended (s : Storage) (key : Str) (now : Nat) :
    key ∈ s.keys "user:*".toList now ↔
      ((∃ v, (key, v) ∈ s.data) ∧ s.expiredAt key now = false ∧
        "user:".toList <+: key) := by
  simp only [Storage.keys, List.mem_map, List.mem_filter]
  constructor
  · rintro ⟨⟨k', v⟩, ⟨hin, hp⟩, rfl⟩
    simp only [Bool.and_eq_true, Bool.not_eq_true'] at hp
    rw [matchPattern_userStar] at hp
    exact ⟨⟨v, hin⟩, hp.1, List.isPrefixOf_iff_prefix.mp hp.2⟩
  · rintro ⟨⟨v, hin⟩, hexp, hpre⟩
    refine ⟨(key, v), ⟨hin, ?_⟩, rfl⟩
    simp only [Bool.and_eq_true, Bool.not_eq_true']
    exact ⟨hexp, by rw [matchPattern_userStar]
                    exact List.isPrefixOf_iff_prefix.mpr hpre⟩

/-- Auxiliary for C9: the in-range case of `GetRange` reads back the
exact slice. -/
theorem getRange_exact (s : Storage) (k val : Str) (a n now : Nat)
    (hexp : s.expiredAt k now = false) (hd : alookup s.data k = some val)
    (hn : 1 ≤ n) (hlen : a + n ≤ val.length) :
    s.getRange k (a : Int) ((a : Int) + n - 1) now = (val.drop a).take n := by
  unfold Storage.getRange
  simp only [hexp, Bool.false_eq_true, if_false, hd]
  have e1 : (if (a : Int) < 0 then (val.length : Int) + a else (a : Int)) =
      (a : Int) := if_neg (by omega)
  have e2 : (if (a : Int) + (n : Int) - 1 < 0
        then (val.length : Int) + ((a : Int) + (n : Int) - 1)
        else (a : Int) + (n : Int) - 1) = (a : Int) + (n : Int) - 1 :=
    if_neg (by omega)
  rw [e1, e2]
  rw [if_neg (show ¬((a : Int) < 0) by omega)]
  rw [if_neg (show ¬((a : Int) + (n : Int) - 1 ≥ (val.length : Int)) by omega)]
  rw [if_neg (show ¬((a : Int) > (a : Int) + (n : Int) - 1) by omega)]
  have e3 : ((a : Int)).toNat = a := by omega
  have e4 : ((a : Int) + (n : Int) - 1 - (a : Int) + 1).toNat = n := by omega
  rw [e3, e4]

/-- Auxiliary for C9: the extension step leaves a buffer long enough for
the write. -/
theorem setRangeBuf_long (s : Storage) (k : Str) (off : Nat) (v : Str) :
    off + v.length ≤ (setRangeBuf s k off v).length := by
  unfold setRangeBuf
  split
  · simp
    omega
  · omega

/-- Auxiliary for C9: the written buffer holds `v` at `[off, off+|v|)`. -/
theorem setRangeVal_mid (s : Storage) (k : Str) (off : Nat) (v : Str) :
    ((setRangeVal s k off v).drop off).take v.length = v := by
  unfold setRangeVal
  rw [List.append_assoc]
  rw [List.drop_left' (by rw [List.length_take]
                          exact min_eq_left (le_trans (by omega) (setRangeBuf_long s k off v)))]
  exact List.take_left' rfl

/-- Auxiliary for C9: the written value is long enough. -/
theorem setRangeVal_long (s : Storage) (k : Str) (off : Nat) (v : Str) :
    off + v.length ≤ (setRangeVal s k off v).length := by
  have h := setRangeBuf_long s k off v
  unfold setRangeVal
  simp [List.length_append, List.length_take, List.length_drop]
  omega

/-- C9 amended: for every key whose expiration instant (if any) has not
passed and every NON-empty byte sequence `v` and offset `o ≥ 0`,
`setRange(k, o, v)` followed by `getRange(k, o, o+len(v)-1)` returns
exactly `v`.  (The counterexample shows the original claim fails for a
key with an already-passed TTL, and for empty `v` at offset 0, where
`o+len(v)-1 = -1` is read as a from-the-end index.) -/
theorem c9_roundtrip (s : Storage) (k : Str) (off : Nat) (v : Str) (now : Nat)
    (hexp : s.expiredAt k now = false) (hv : v ≠ []) :
    ((s.setRange k off v).2).getRange k (off : Int)
      ((off : Int) + v.length - 1) now = v := by
  have hv1 : 1 ≤ v.length := List.length_pos.mpr hv
  have hres : (s.setRange k off v).2 =
      { s with data := ainsert s.data k (setRangeVal s k off v) } := rfl
  rw [hres]
  have hd : alookup ({ s with data := ainsert s.data k (setRangeVal s k off v) } :
      Storage).data k = some (setRangeVal s k off v) := alookup_ainsert_self _ _ _
  have hexp' : ({ s with data := ainsert s.data k (setRangeVal s k off v) } :
      Storage).expiredAt k now = false := hexp
  have h := getRange_exact _ k (setRangeVal s k off v) off v.length now hexp' hd
    hv1 (setRangeVal_long s k off v)
  rw [h, setRangeVal_mid]

/-- C9 amended, witness: writing `ab` at offset 1 of the TTL-free
`helloStore` and reading it back. -/
theorem c9_roundtrip_witness :
    ((helloStore.setRange ['k'] 1 "ab".toList).2).getRange ['k'] (1 : Int)
      ((1 : Int) + "ab".toList.length - 1) 0 = "ab".toList := by
  exact c9_roundtrip helloStore ['k'] 1 "ab".toList 0 (by decide) (by decide)
